import Mathlib

/-!
Verification of the state-value addressing and event-normalization layer
(`src/packages/core/src/utils.ts`).

The development shallowly embeds the functions of `utils.ts` over explicit
universes of JavaScript values:

* `StateValue` models the recursive state-value shape `string | { [key]: StateValue }`;
  a compound value's regions are kept as an ordered association sequence, matching
  the insertion order of a JavaScript object's string keys.
* JavaScript strings are Lean `String`s; `String.prototype.split` is modelled by
  `jsSplit` (single-character separators by `splitChar`, the general scanning
  algorithm by `splitSeq`).
* Fallible functions (`toStatePath`, `getEventType`, `toSCXMLEvent`) return
  `Except String _`, the error carrying the thrown message.
* Functions whose dynamic behaviour depends on the shape of their argument take a
  small inductive universe of the relevant JavaScript shapes (`StatePathInput`,
  `EventArg`, `EventInput`, ...).
-/

/-! ## State values (`StateValue` from `types.ts`, used throughout `utils.ts`) -/

mutual
/-- A state value: either an atomic state name (a JS string) or a compound
object mapping region names to sub-state values. -/
inductive StateValue where
  | atomic : String → StateValue
  | compound : Regions → StateValue
  deriving Repr
/-- The ordered fields of a compound state value, in JS object key order. -/
inductive Regions where
  | nil : Regions
  | cons : String → StateValue → Regions → Regions
  deriving Repr
end

mutual
def StateValue.beq : StateValue → StateValue → Bool
  | .atomic a, .atomic b => a == b
  | .compound a, .compound b => Regions.beq a b
  | _, _ => false
def Regions.beq : Regions → Regions → Bool
  | .nil, .nil => true
  | .cons k v r, .cons k' v' r' => k == k' && StateValue.beq v v' && Regions.beq r r'
  | _, _ => false
end

mutual
theorem svBeq_iff : ∀ a b : StateValue, StateValue.beq a b = true ↔ a = b
  | .atomic a, .atomic b => by simp [StateValue.beq]
  | .atomic a, .compound b => by simp [StateValue.beq]
  | .compound a, .atomic b => by simp [StateValue.beq]
  | .compound a, .compound b => by simp [StateValue.beq, rsBeq_iff a b]
theorem rsBeq_iff : ∀ a b : Regions, Regions.beq a b = true ↔ a = b
  | .nil, .nil => by simp [Regions.beq]
  | .nil, .cons k v r => by simp [Regions.beq]
  | .cons k v r, .nil => by simp [Regions.beq]
  | .cons k v r, .cons k' v' r' => by
      simp [Regions.beq, svBeq_iff v v', rsBeq_iff r r', and_assoc]
end

instance : DecidableEq StateValue := fun a b => decidable_of_iff _ (svBeq_iff a b)
instance : DecidableEq Regions := fun a b => decidable_of_iff _ (rsBeq_iff a b)

/-- JS property access `obj[key]` on a compound value's regions (first matching key). -/
def Regions.lookup (key : String) : Regions → Option StateValue
  | .nil => none
  | .cons k v rest => if key == k then some v else Regions.lookup key rest

/-- `Object.keys` (`keys`, `utils.ts` line 29), in insertion order. -/
def Regions.keys : Regions → List String
  | .nil => []
  | .cons k _ rest => k :: Regions.keys rest

mutual
/-- Size measure used to justify termination of `matchesState`: an atomic value
weighs twice its name length (so that splitting a name on a one-character
delimiter can pay for the constructors of the expansion), a compound value
weighs one plus one per field plus the weights of its sub-values. -/
def svSize : StateValue → Nat
  | .atomic s => 2 * s.length + 1
  | .compound rs => 1 + rsSize rs
def rsSize : Regions → Nat
  | .nil => 0
  | .cons _ v rest => 1 + svSize v + rsSize rest
end

/-! ## JavaScript string splitting (`String.prototype.split`) -/

/-- JS `s.split(sep)` for a one-character separator `c`, at the level of
character lists: cut at every occurrence of `c`. -/
def splitChar (c : Char) : List Char → List (List Char)
  | [] => [[]]
  | ch :: rest =>
    if ch = c then [] :: splitChar c rest
    else
      match splitChar c rest with
      | [] => [[ch]]
      | p :: ps => (ch :: p) :: ps

/-- JS `s.split(sep)` for a general separator: scan left to right, cutting at
each (non-overlapping) occurrence of `sep`. The `Nat` argument is recursion
fuel; `jsSplit` supplies `s.length`, which is sufficient since every step
consumes at least one character. -/
def splitSeq (sep : List Char) : Nat → List Char → List (List Char)
  | 0, s => [s]
  | _ + 1, [] => [[]]
  | fuel + 1, ch :: rest =>
    if sep.isPrefixOf (ch :: rest) then
      [] :: splitSeq sep fuel ((ch :: rest).drop sep.length)
    else
      match splitSeq sep fuel rest with
      | [] => [[ch]]
      | p :: ps => (ch :: p) :: ps

/-- JS `s.split(sep)`. An empty separator explodes the string into its
characters (so `"".split("") == []`); otherwise the string is cut at each
occurrence of the separator (so `"".split(".") == [""]`). -/
def jsSplit (s sep : String) : List String :=
  match sep.data with
  | [] => s.data.map (fun ch => String.mk [ch])
  | [c] => (splitChar c s.data).map String.mk
  | _ => (splitSeq sep.data s.data.length s.data).map String.mk

/-- Modelled from the spec: `STATE_DELIMITER` is imported from `constants.ts`,
which is not under `src/`. Per §6 of the spec, the delimiter is "a single
configurable separator character (default is a period)". -/
def STATE_DELIMITER : String := "."

/-! ## Path conversion (`toStatePath`, `pathToStateValue`, `toStateValue`) -/

/-- The dynamic shapes relevant to `toStatePath`'s behaviour: its static domain
`string | string[]`, plus out-of-domain values the spec discusses (a number, a
plain object, and the two values on which `.toString()` itself throws). -/
inductive StatePathInput where
  | arr (path : List String)
  | str (s : String)
  | num (n : Int)
  | objPlain
  | null
  | undefined
deriving DecidableEq, Repr

/-- `toStatePath` (`utils.ts` lines 77-90): arrays are returned as-is; any
other value is stringified with `.toString()` and split on the delimiter.
Only `null` and `undefined` make the `try` block throw (property access on
them raises a `TypeError`), which is caught and re-thrown as the parse error;
a number stringifies to its decimal form and a plain object stringifies to
`"[object Object]"`, so neither throws. The thrown message interpolates the
offending value (here `null`/`undefined`); the source wraps it in single
quotes, elided here. -/
def toStatePath (stateId : StatePathInput) (delimiter : String) : Except String (List String) :=
  match stateId with
  | .arr l => .ok l
  | .str s => .ok (jsSplit s delimiter)
  | .num n => .ok (jsSplit (toString n) delimiter)
  | .objPlain => .ok (jsSplit "[object Object]" delimiter)
  | .null => .error "null is not a valid state path."
  | .undefined => .error "undefined is not a valid state path."

/-- `pathToStateValue` (`utils.ts` lines 123-141): a one-segment path is the
atomic state named by its segment; a longer path becomes a chain of
single-region compounds whose last two segments form `{ secondLast: last }`.
An empty path leaves the freshly allocated `value = {}` untouched and returns
the empty compound. -/
def pathToStateValue (statePath : List String) : StateValue :=
  match statePath with
  | [] => .compound .nil
  | [x] => .atomic x
  | x :: rest => .compound (.cons x (pathToStateValue rest) .nil)

/-- The input shapes accepted by `toStateValue`: a machine-state-like record
(only its `value` field is used), an array of path segments, or a state value
itself (`isStateLike` distinguishes the first; `isArray` the second). -/
inductive StateValueInput where
  | stateLike (value : StateValue)
  | arr (path : List String)
  | value (v : StateValue)
deriving DecidableEq, Repr

/-- `toStateValue` (`utils.ts` lines 102-121): state-like records yield their
`value` field; arrays go through `pathToStateValue`; non-string values pass
through unchanged; strings are split with `toStatePath` and then converted.
The error branch of the inner match is unreachable (splitting a string never
throws). -/
def toStateValue (stateValue : StateValueInput) (delimiter : String) : StateValue :=
  match stateValue with
  | .stateLike sv => sv
  | .arr path => pathToStateValue path
  | .value (.compound rs) => .compound rs
  | .value (.atomic s) =>
    match toStatePath (.str s) delimiter with
    | .ok statePath => pathToStateValue statePath
    | .error _ => pathToStateValue []

/-! ### Termination of `matchesState`

`matchesState` re-normalizes the sub-values it recurses into (with the default
delimiter), so its termination rests on the fact that normalizing with a
one-character delimiter never increases `svSize`: splitting a name of length
`n` into `m` pieces yields pieces of total length `n - (m - 1)`, and the
`2 *` weighting of name lengths absorbs the constructors of the expansion. -/

theorem splitChar_ne_nil (c : Char) (l : List Char) : splitChar c l ≠ [] := by
  induction l with
  | nil => simp [splitChar]
  | cons ch rest ih =>
    simp only [splitChar]
    split
    · simp
    · split
      · simp
      · simp

theorem splitChar_size (c : Char) (l : List Char) :
    ((splitChar c l).map List.length).sum + (splitChar c l).length = l.length + 1 := by
  induction l with
  | nil => simp [splitChar]
  | cons ch rest ih =>
    simp only [splitChar]
    split
    · simp only [List.map_cons, List.sum_cons, List.length_cons, List.length_nil]
      omega
    · cases hsp : splitChar c rest with
      | nil => exact absurd hsp (splitChar_ne_nil c rest)
      | cons p ps =>
        rw [hsp] at ih
        simp only [List.map_cons, List.sum_cons, List.length_cons] at ih ⊢
        omega

theorem svSize_pathToStateValue (pieces : List String) (h : pieces ≠ []) :
    svSize (pathToStateValue pieces) + 1 ≤
      2 * (pieces.map String.length).sum + 2 * pieces.length := by
  induction pieces with
  | nil => exact absurd rfl h
  | cons x rest ih =>
    cases rest with
    | nil =>
      simp only [pathToStateValue, svSize, List.map_cons,
        List.map_nil, List.sum_cons, List.sum_nil, List.length_cons, List.length_nil]
      omega
    | cons y t =>
      have hne : y :: t ≠ [] := by simp
      have := ih hne
      simp only [pathToStateValue, svSize, rsSize, List.map_cons, List.sum_cons,
        List.length_cons] at *
      omega

theorem svSize_toStateValue_le (v : StateValue) :
    svSize (toStateValue (.value v) STATE_DELIMITER) ≤ svSize v := by
  cases v with
  | compound rs => simp [toStateValue]
  | atomic s =>
    show svSize (pathToStateValue ((splitChar '.' s.data).map String.mk)) ≤ 2 * s.length + 1
    have hne : (splitChar '.' s.data).map String.mk ≠ [] := by
      simp [splitChar_ne_nil '.' s.data]
    have hb := svSize_pathToStateValue _ hne
    have hs := splitChar_size '.' s.data
    have hlen : (((splitChar '.' s.data).map String.mk).map String.length).sum
        = ((splitChar '.' s.data).map List.length).sum := by
      rw [List.map_map]
      rfl
    rw [hlen, List.length_map] at hb
    have : s.length = s.data.length := rfl
    omega

theorem rsSize_lookup_le : ∀ {rs : Regions} {k : String} {v : StateValue},
    rs.lookup k = some v → 1 + svSize v ≤ rsSize rs
  | .nil, _, _, h => by simp [Regions.lookup] at h
  | .cons k' v' rest, k, v, h => by
    simp only [Regions.lookup] at h
    split at h
    · cases h
      simp only [rsSize]
      omega
    · have := rsSize_lookup_le h
      simp only [rsSize]
      omega

/-! ## Containment matching (`matchesState`, `utils.ts` lines 33-61)

The source normalizes both arguments with `toStateValue`, then matches on the
shapes. Its recursive call `matchesState(parentStateValue[key],
childStateValue[key])` omits the delimiter, so the sub-values are
re-normalized with the default `STATE_DELIMITER`. The mutual functions below
are that same code with the normalization of the two entry arguments factored
into the `matchesState` wrapper: `matchesStateNorm` receives the two
normalized values, `matchesKeys` is the `keys(parent).every(...)` loop, and
`matchesKeyIn` is one loop body — `key in child` failing yields `false`,
otherwise the recursive `matchesState` call on the two sub-values. -/

mutual
def matchesStateNorm : StateValue → StateValue → Bool
  | .atomic p, .atomic c => p == c
  | .compound _, .atomic _ => false
  | .atomic p, .compound cregions => (cregions.lookup p).isSome
  | .compound pregions, .compound cregions => matchesKeys pregions cregions
termination_by P C => svSize P + svSize C + 1
decreasing_by simp [svSize]; omega

def matchesKeys : Regions → Regions → Bool
  | .nil, _ => true
  | .cons key pv rest, cregions =>
    matchesKeyIn key pv cregions && matchesKeys rest cregions
termination_by ps cs => rsSize ps + rsSize cs + 1
decreasing_by
  · simp only [rsSize]; omega
  · simp only [rsSize]; omega

def matchesKeyIn (key : String) (pv : StateValue) : Regions → Bool
  | .nil => false
  | .cons k cv rest =>
    if key == k then
      matchesStateNorm (toStateValue (.value pv) STATE_DELIMITER)
        (toStateValue (.value cv) STATE_DELIMITER)
    else matchesKeyIn key pv rest
termination_by cs => svSize pv + rsSize cs + 1
decreasing_by
  · rename_i k cv rest _hkey
    have h1 := svSize_toStateValue_le pv
    have h2 := svSize_toStateValue_le cv
    simp only [rsSize]
    omega
  · simp only [rsSize]; omega
end

/-- `matchesState(parentStateId, childStateId, delimiter)`: normalize both
arguments and compare. The source's default `delimiter = STATE_DELIMITER` is
written explicitly at call sites here. -/
def matchesState (parentStateId childStateId : StateValue) (delimiter : String) : Bool :=
  matchesStateNorm (toStateValue (.value parentStateId) delimiter)
    (toStateValue (.value childStateId) delimiter)

/-! ## Leaf-path enumeration (`toStatePaths`, `utils.ts` lines 194-221) -/

/-- `flatten` (`utils.ts` lines 223-225): `[].concat(...array)`. -/
def flatten {α : Type} (array : List (List α)) : List α := array.flatten

/-- The guard `typeof sub !== 'string' && (!sub || !Object.keys(sub).length)`
of `toStatePaths`: true exactly for a compound value with no keys. -/
def StateValue.isEmptyMapping : StateValue → Bool
  | .compound .nil => true
  | _ => false

mutual
/-- `toStatePaths` on a defined state value. The initial `if (!stateValue)`
falsy test catches the empty string among defined values, hence the special
case for `.atomic ""`. -/
def toStatePathsVal : StateValue → List (List String)
  | .atomic s => if s = "" then [[]] else [[s]]
  | .compound rs => flatten (toStatePathsRegions rs)
/-- The `keys(stateValue).map(...)` body of `toStatePaths`: childless keys
contribute `[[key]]`, others prepend their key to each recursive leaf path. -/
def toStatePathsRegions : Regions → List (List (List String))
  | .nil => []
  | .cons key sub rest =>
    (if sub.isEmptyMapping then [[key]]
     else (toStatePathsVal sub).map fun subPath => key :: subPath)
    :: toStatePathsRegions rest
end

/-- `toStatePaths(stateValue)` (`utils.ts` lines 194-221); an undefined (or
falsy) input yields the single empty path. -/
def toStatePaths : Option StateValue → List (List String)
  | none => [[]]
  | some sv => toStatePathsVal sv

mutual
/-- The invariant claimed in §3 for path-built values: no compound anywhere in
the value has an empty region mapping. -/
def noEmptyCompound : StateValue → Bool
  | .atomic _ => true
  | .compound .nil => false
  | .compound rs => noEmptyCompoundRegions rs
def noEmptyCompoundRegions : Regions → Bool
  | .nil => true
  | .cons _ v rest => noEmptyCompound v && noEmptyCompoundRegions rest
end

/-- Modelled from the spec: `pathJoin(p, d)` in §8 (Testable Properties) is the
serialization direction of the path round trip — the path's segments joined
with the delimiter. It is not a function of `src/packages/core/src/utils.ts`. -/
def pathJoin (p : List String) (d : String) : String :=
  String.mk (List.intercalate d.data (p.map String.data))

/-! ## Events (`getEventType`, `toEventObject`, `toSCXMLEvent`) -/

/-- Values a JS event-object field can take in this model. -/
inductive EField where
  | str (s : String)
  | num (n : Int)
  | undefined
deriving DecidableEq, Repr

/-- A raw event (`RawEvent` in §3 of the spec: a bare string or number, or a
structured record). The structured record is kept as its ordered list of
fields; its `type` field, when present, is `fields.lookup "type"`. -/
inductive RawEvent where
  | str (s : String)
  | num (n : Int)
  | obj (fields : List (String × EField))
deriving DecidableEq, Repr

/-- JS property write inside an object literal: a later `key: value` entry
overwrites the value of an existing key in place, otherwise appends. -/
def setField (fs : List (String × EField)) (k : String) (v : EField) :
    List (String × EField) :=
  if (fs.lookup k).isSome then fs.map (fun kv => if kv.1 = k then (k, v) else kv)
  else fs ++ [(k, v)]

/-- JS object spread `{ ...base, ...add }` field semantics. -/
def spreadFields (base add : List (String × EField)) : List (String × EField) :=
  add.foldl (fun acc kv => setField acc kv.1 kv.2) base

/-- JS property access `event.type` on a raw event: `undefined` on strings and
numbers (they have no such property), the field's value on objects, defaulting
to `undefined` when the field is absent. -/
def RawEvent.getTypeField : RawEvent → EField
  | .obj fs => (fs.lookup "type").getD .undefined
  | _ => .undefined

/-- `toEventObject(event, payload)` (`utils.ts` lines 355-364): only a string
event is wrapped as `{ type: event, ...payload }`; every other input — a
structured event, but also a bare number — falls through `return event`
unchanged, the payload ignored. -/
def toEventObject (event : RawEvent) (payload : Option (List (String × EField))) :
    RawEvent :=
  match event with
  | .str s => .obj (spreadFields [("type", .str s)] (payload.getD []))
  | e => e

/-- The dynamic shapes relevant to `getEventType`: a raw event, plus `null`
and `undefined`, the only inputs whose `.type` access throws. -/
inductive EventArg where
  | ev (e : RawEvent)
  | null
  | undefined
deriving DecidableEq, Repr

def eventTypeErrorMessage : String :=
  "Events must be strings or objects with a string event.type property."

/-- `getEventType` (`utils.ts` lines 63-75): strings and numbers stringify via
the template literal; any other value has its `type` property read. Only
`null` and `undefined` make that property access throw (the `catch` re-throws
the descriptive error); an object without a `type` field simply yields
`undefined`. -/
def getEventType : EventArg → Except String EField
  | .ev (.str s) => .ok (.str s)
  | .ev (.num n) => .ok (.str (toString n))
  | .ev (.obj fs) => .ok ((fs.lookup "type").getD .undefined)
  | .null => .error eventTypeErrorMessage
  | .undefined => .error eventTypeErrorMessage

/-- An SCXML envelope (`SCXML.Event` in `types.ts`, not under `src/`; fields
per §3 of the spec). The `$$type: 'scxml'` discriminant is a literal type and
is represented by membership in this structure; `origin` is absent in the
envelope built by `toSCXMLEvent` unless supplied by overrides. -/
structure SCXMLEvent where
  name : EField
  data : RawEvent
  type : String
  origin : Option String
deriving DecidableEq, Repr

/-- `Partial<SCXML.Event>`: the optional override fields accepted by
`toSCXMLEvent`. -/
structure SCXMLOverrides where
  name : Option EField := none
  data : Option RawEvent := none
  type : Option String := none
  origin : Option String := none
deriving DecidableEq, Repr

/-- The domain of `toSCXMLEvent` and `isSCXMLEvent`: a raw event or an
envelope. Per §3 of the spec the envelope discriminant is "distinct from all
domain event shapes", so raw structured events never carry `$$type`. -/
inductive EventInput where
  | raw (e : RawEvent)
  | scxml (e : SCXMLEvent)
deriving DecidableEq, Repr

def inOperatorError : String :=
  "TypeError: cannot use the in operator to search for $$type in a number"

/-- `isSCXMLEvent` (`utils.ts` lines 366-370): `!isString(event)` short-circuits
for strings; for a number the subsequent `'$$type' in event` throws a
`TypeError` (the `in` operator requires an object); objects answer the
membership test. -/
def isSCXMLEvent : EventInput → Except String Bool
  | .raw (.str _) => .ok false
  | .raw (.num _) => .error inOperatorError
  | .raw (.obj _) => .ok false
  | .scxml _ => .ok true

/-- JS object spread `{ name, data, $$type, type, ...scxmlEvent }`: each
override field present replaces the corresponding default. -/
def spreadSCXML (base : SCXMLEvent) : Option SCXMLOverrides → SCXMLEvent
  | none => base
  | some o =>
    { name := o.name.getD base.name
      data := o.data.getD base.data
      type := o.type.getD base.type
      origin := o.origin.orElse fun _ => base.origin }

/-- `toSCXMLEvent(event, scxmlEvent)` (`utils.ts` lines 378-395): an input
already satisfying `isSCXMLEvent` is returned as-is (overrides ignored); a
bare number makes the `isSCXMLEvent` test itself throw; otherwise the raw
event is converted with `toEventObject` and wrapped with `name` its `type`
property, `data` the converted event, `type: 'external'`, the overrides
spread last. -/
def toSCXMLEvent (event : EventInput) (scxmlEvent : Option SCXMLOverrides) :
    Except String SCXMLEvent :=
  match event with
  | .scxml e => .ok e
  | .raw (.num _) => .error inOperatorError
  | .raw e0 =>
    let eventObject := toEventObject e0 none
    .ok (spreadSCXML
      { name := eventObject.getTypeField
        data := eventObject
        type := "external"
        origin := none } scxmlEvent)

/-! ## Config normalizers (`toArray`, `normalizeTarget`, `toObserver`) -/

/-- `SingleOrArray<T>` from `types.ts` (not under `src/`): a single value or
an array of values. -/
inductive SingleOrArray (α : Type) where
  | single (a : α)
  | arr (l : List α)
deriving DecidableEq, Repr

/-- `toArrayStrict` (`utils.ts` lines 227-232): arrays as-is, anything else
becomes a one-element array. -/
def toArrayStrict {α : Type} : SingleOrArray α → List α
  | .arr l => l
  | .single a => [a]

/-- `toArray` (`utils.ts` lines 234-239): `undefined` becomes `[]`, everything
else goes through `toArrayStrict`. -/
def toArray {α : Type} : Option (SingleOrArray α) → List α
  | none => []
  | some v => toArrayStrict v

/-- Modelled from the spec: `TARGETLESS_KEY` is imported from `constants.ts`,
which is not under `src/`; §3/§4.2 call it "the reserved targetless sentinel".
Its concrete value is irrelevant to the claims settled here; it is fixed as
the empty string. -/
def TARGETLESS_KEY : String := ""

/-- `normalizeTarget(target)` (`utils.ts` lines 430-440): `undefined` and the
targetless sentinel normalize to `undefined`; anything else goes through
`toArray`. Targets are specialized to strings here; a `StateNode` target is
never strictly equal to the string sentinel, so it would behave like any
other non-sentinel single value. -/
def normalizeTarget (target : Option (SingleOrArray String)) : Option (List String) :=
  match target with
  | none => none
  | some t => if t = .single TARGETLESS_KEY then none else some (toArray (some t))

/-- An observer callback. JS functions are compared by reference; `fn id`
stands for a caller-supplied function and `noop` for the `() => void 0`
allocated by `toObserver` itself. -/
inductive Handler where
  | noop
  | fn (id : Nat)
deriving DecidableEq, Repr

/-- An observer-shaped record; fields may be absent (the type system of the
source does not force a passed-in observer object to carry `error` or
`complete`). -/
structure PartialObserver where
  next : Option Handler := none
  error : Option Handler := none
  complete : Option Handler := none
deriving DecidableEq, Repr

/-- The first argument of `toObserver`: an observer record or a bare function. -/
inductive ObserverInput where
  | obs (o : PartialObserver)
  | fn (h : Handler)
deriving DecidableEq, Repr

/-- `toObserver(nextHandler, errorHandler, completionHandler)` (`utils.ts`
lines 509-525): an object-typed first argument is returned as-is — no
defaulting of missing fields — and only a function-typed first argument is
assembled into `{ next, error: errorHandler || noop, complete:
completionHandler || noop }`. -/
def toObserver (nextHandler : ObserverInput) (errorHandler : Option Handler)
    (completionHandler : Option Handler) : PartialObserver :=
  match nextHandler with
  | .obs o => o
  | .fn h =>
    { next := some h
      error := some (errorHandler.getD .noop)
      complete := some (completionHandler.getD .noop) }

/-! ## Supporting lemmas -/

/-- `key in obj` succeeds exactly when the key is among the object's keys. -/
theorem Regions.lookup_isSome_iff : ∀ (rs : Regions) (k : String),
    (rs.lookup k).isSome = true ↔ k ∈ rs.keys
  | .nil, k => by simp [Regions.lookup, Regions.keys]
  | .cons k' v rest, k => by
    simp only [Regions.lookup, Regions.keys, List.mem_cons]
    by_cases h : k == k'
    · simp [h, beq_iff_eq.mp h]
    · simp only [h, if_neg, Bool.false_eq_true, ite_false]
      rw [Regions.lookup_isSome_iff rest k]
      simp [beq_iff_eq] at h
      simp [h]

/-- The single-character JS split agrees with Mathlib's `List.splitOn`. -/
theorem splitChar_eq_splitOn (c : Char) (l : List Char) :
    splitChar c l = l.splitOn c := by
  induction l with
  | nil => simp [splitChar, List.splitOn_nil]
  | cons ch rest ih =>
    simp only [splitChar, List.splitOn, List.splitOnP_cons] at ih ⊢
    by_cases h : ch = c
    · simp [h, ih]
    · simp only [h, if_neg, beq_iff_eq, ite_false]
      rw [← ih]
      cases hsp : splitChar c rest with
      | nil => exact absurd hsp (splitChar_ne_nil c rest)
      | cons p ps => simp [List.modifyHead]

theorem map_mk_data : ∀ p : List String, (p.map String.data).map String.mk = p
  | [] => rfl
  | s :: rest => by
    show String.mk s.data :: (rest.map String.data).map String.mk = s :: rest
    rw [map_mk_data rest]

/-! ## Claims -/

/-- C1: `matchesState` is an asymmetric containment relation. With both
arguments normalized by `toStateValue`: when the normalized actual (child)
value is atomic, the result is true iff the normalized queried (parent) value
is the same atomic — in particular a compound query is never satisfied by an
atomic actual; when the actual is compound and the queried is atomic, the
result is true iff the queried name is among the actual's top-level region
keys. In particular `matchesState("a", {a: "b"})` is true and
`matchesState({a: "b"}, "a")` is false. -/
theorem C1_matchesState_containment :
    (∀ (q a : StateValue) (d : String) (s : String),
      toStateValue (.value a) d = .atomic s →
      (matchesState q a d = true ↔ toStateValue (.value q) d = .atomic s))
    ∧ (∀ (q a : StateValue) (d : String) (qs : String) (cregions : Regions),
      toStateValue (.value q) d = .atomic qs →
      toStateValue (.value a) d = .compound cregions →
      (matchesState q a d = true ↔ qs ∈ cregions.keys))
    ∧ matchesState (.atomic "a") (.compound (.cons "a" (.atomic "b") .nil))
        STATE_DELIMITER = true
    ∧ matchesState (.compound (.cons "a" (.atomic "b") .nil)) (.atomic "a")
        STATE_DELIMITER = false := by
  refine ⟨?_, ?_, ?_, ?_⟩
  · intro q a d s ha
    unfold matchesState
    rw [ha]
    cases hq : toStateValue (.value q) d with
    | atomic qs => simp [matchesStateNorm]
    | compound rs => simp [matchesStateNorm]
  · intro q a d qs cregions hq ha
    unfold matchesState
    rw [hq, ha]
    simp only [matchesStateNorm]
    rw [Option.isSome_iff_exists]
    constructor
    · rintro ⟨v, hv⟩
      exact (Regions.lookup_isSome_iff cregions qs).mp (by simp [hv])
    · intro hmem
      have := (Regions.lookup_isSome_iff cregions qs).mpr hmem
      exact Option.isSome_iff_exists.mp this
  · show matchesStateNorm (.atomic "a") (.compound (.cons "a" (.atomic "b") .nil)) = true
    simp [matchesStateNorm, Regions.lookup]
  · show matchesStateNorm (.compound (.cons "a" (.atomic "b") .nil)) (.atomic "a") = false
    simp [matchesStateNorm]

theorem C1_matchesState_containment_witness :
    matchesState (.atomic "go") (.atomic "go") STATE_DELIMITER = true :=
  (C1_matchesState_containment.1 (.atomic "go") (.atomic "go") STATE_DELIMITER "go"
    (by decide)).mpr (by decide)

/-- C2: `toSCXMLEvent` is idempotent as an identity. Every input satisfying
`isSCXMLEvent` is returned as-is (`.ok` of the very same envelope, the
overrides argument ignored), and composing `toSCXMLEvent` with itself (the
second call applied to the first's result, errors propagating as a thrown
exception would) equals a single application, for every raw or wrapped event. -/
theorem C2_toSCXMLEvent_idempotent :
    (∀ (e : EventInput) (o : Option SCXMLOverrides), isSCXMLEvent e = .ok true →
      ∃ w, e = .scxml w ∧ toSCXMLEvent e o = .ok w)
    ∧ (∀ e : EventInput,
      (toSCXMLEvent e none).bind (fun w => toSCXMLEvent (.scxml w) none)
        = toSCXMLEvent e none) := by
  constructor
  · intro e o h
    cases e with
    | raw r => cases r <;> simp [isSCXMLEvent] at h
    | scxml w => exact ⟨w, rfl, rfl⟩
  · intro e
    cases e with
    | raw r => cases r <;> rfl
    | scxml w => rfl

theorem C2_toSCXMLEvent_idempotent_witness :
    ∃ w, EventInput.scxml ⟨.str "E", .obj [("type", .str "E")], "external", none⟩
        = .scxml w
      ∧ toSCXMLEvent (.scxml ⟨.str "E", .obj [("type", .str "E")], "external", none⟩)
          (some { type := some "internal" }) = .ok w :=
  C2_toSCXMLEvent_idempotent.1
    (.scxml ⟨.str "E", .obj [("type", .str "E")], "external", none⟩)
    (some { type := some "internal" }) rfl

/-- C3: `toStatePaths` enumerates exactly the active leaf paths. An undefined
input yields the single empty path; a compound value contributes, key by key
in mapping order, `[key]` when the key's sub-value is an empty mapping and
otherwise the sub-value's leaf paths each with the key prepended; in
particular `toStatePaths({a: {}, b: {}}) = [["a"], ["b"]]` and
`toStatePaths({a: {b: {}}}) = [["a", "b"]]`. -/
theorem C3_toStatePaths_leaf_enumeration :
    toStatePaths none = [[]]
    ∧ toStatePaths (some (.compound .nil)) = []
    ∧ (∀ (key : String) (sub : StateValue) (rest : Regions),
      toStatePaths (some (.compound (.cons key sub rest)))
        = (if sub.isEmptyMapping then [[key]]
           else (toStatePaths (some sub)).map fun subPath => key :: subPath)
          ++ toStatePaths (some (.compound rest)))
    ∧ toStatePaths (some (.compound (.cons "a" (.compound .nil)
        (.cons "b" (.compound .nil) .nil)))) = [["a"], ["b"]]
    ∧ toStatePaths (some (.compound
        (.cons "a" (.compound (.cons "b" (.compound .nil) .nil)) .nil)))
      = [["a", "b"]] := by
  refine ⟨rfl, rfl, ?_, rfl, rfl⟩
  intro key sub rest
  simp [toStatePaths, toStatePathsVal, toStatePathsRegions, flatten]

/-- C4 counterexample: the claim says `toStatePath` raises for every input
that is neither a string array nor a string, in particular for a number or a
non-array object. In fact both stringify via `.toString()` and are split
without raising. -/
theorem C4_toStatePath_counterexample :
    toStatePath (.num 42) STATE_DELIMITER = .ok ["42"]
    ∧ toStatePath .objPlain STATE_DELIMITER = .ok ["[object Object]"] :=
  ⟨rfl, rfl⟩

/-- C4 amended: `toStatePath` returns arrays as-is and splits strings on the
delimiter; every other input is stringified with `.toString()` and split
(numbers to their decimal form, plain objects to `"[object Object]"`); it
raises the parse error exactly when the input is `null` or `undefined`, the
only shapes on which `.toString()` itself throws. -/
theorem C4_toStatePath_amended :
    (∀ (x : StatePathInput) (d : String),
      (toStatePath x d).isOk = false ↔ (x = .null ∨ x = .undefined))
    ∧ (∀ (l : List String) (d : String), toStatePath (.arr l) d = .ok l)
    ∧ (∀ s d : String, toStatePath (.str s) d = .ok (jsSplit s d))
    ∧ (∀ (n : Int) (d : String), toStatePath (.num n) d = .ok (jsSplit (toString n) d))
    ∧ (∀ d : String, toStatePath .objPlain d = .ok (jsSplit "[object Object]" d)) := by
  refine ⟨?_, fun _ _ => rfl, fun _ _ => rfl, fun _ _ => rfl, fun _ => rfl⟩
  intro x d
  cases x <;> simp [toStatePath, Except.isOk, Except.toBool]

/-- C5 counterexample: the claim says `getEventType` raises for an object
event lacking a `type` field. In fact the property access yields `undefined`
without raising. -/
theorem C5_getEventType_counterexample :
    getEventType (.ev (.obj [("foo", .num 1)])) = .ok .undefined := rfl

/-- C5 amended: `getEventType` stringifies string and number events and
returns the `type` field of object events — `undefined`, not an error, when
the field is absent; it raises the event-type error exactly when the event is
`null` or `undefined`, the only inputs whose property access throws. -/
theorem C5_getEventType_amended :
    (∀ s, getEventType (.ev (.str s)) = .ok (.str s))
    ∧ (∀ n : Int, getEventType (.ev (.num n)) = .ok (.str (toString n)))
    ∧ (∀ fs, getEventType (.ev (.obj fs)) = .ok ((fs.lookup "type").getD .undefined))
    ∧ (∀ x : EventArg, (getEventType x).isOk = false ↔ (x = .null ∨ x = .undefined)) := by
  refine ⟨fun _ => rfl, fun _ => rfl, fun _ => rfl, ?_⟩
  intro x
  cases x with
  | ev e => cases e <;> simp [getEventType, Except.isOk, Except.toBool]
  | null => simp [getEventType, Except.isOk, Except.toBool]
  | undefined => simp [getEventType, Except.isOk, Except.toBool]

/-- C6 counterexample: the claim says `toEventObject` turns every string or
number raw event into `{ type: stringified, ...payload }`. A number event is
not wrapped: only `isString` is tested, so `toEventObject(42)` returns `42`
itself, not a structured event. -/
theorem C6_toEventObject_counterexample :
    toEventObject (.num 42) none = .num 42
    ∧ toEventObject (.num 42) none ≠ .obj [("type", .str "42")] :=
  ⟨rfl, by decide⟩

/-- C6 amended: `toEventObject` wraps string events as
`{ type: event, ...payload }` (the payload's fields spread over the literal);
every other event — structured events and bare numbers alike — passes through
unchanged with the payload ignored. -/
theorem C6_toEventObject_amended :
    (∀ (s : String) (p : Option (List (String × EField))),
      toEventObject (.str s) p = .obj (spreadFields [("type", .str s)] (p.getD [])))
    ∧ toEventObject (.str "E") (some [("k", .str "v")])
        = .obj [("type", .str "E"), ("k", .str "v")]
    ∧ (∀ (n : Int) (p : Option (List (String × EField))), toEventObject (.num n) p = .num n)
    ∧ (∀ (fs : List (String × EField)) (p : Option (List (String × EField))),
      toEventObject (.obj fs) p = .obj fs) :=
  ⟨fun _ _ => rfl, rfl, fun _ _ => rfl, fun _ _ => rfl⟩

/-- C7 counterexample: the claim says every input other than `undefined` and
the targetless sentinel normalizes to an array of length at least one. An
empty array input is passed through `toArray` unchanged, yielding a
zero-length array. -/
theorem C7_normalizeTarget_counterexample :
    normalizeTarget (some (.arr ([] : List String))) = some [] := rfl

/-- C7 amended: `normalizeTarget` maps `undefined` and the targetless
sentinel to `undefined`; a single non-sentinel value becomes a one-element
array; an array input is returned as-is — its length is preserved, so the
result has length at least one only when the input array was nonempty. -/
theorem C7_normalizeTarget_amended :
    normalizeTarget none = none
    ∧ normalizeTarget (some (.single TARGETLESS_KEY)) = none
    ∧ (∀ a : String, a ≠ TARGETLESS_KEY → normalizeTarget (some (.single a)) = some [a])
    ∧ (∀ l : List String, normalizeTarget (some (.arr l)) = some l) := by
  refine ⟨rfl, by simp [normalizeTarget], ?_, ?_⟩
  · intro a ha
    simp [normalizeTarget, toArray, toArrayStrict, ha]
  · intro l
    simp [normalizeTarget, toArray, toArrayStrict]

theorem C7_normalizeTarget_amended_witness :
    normalizeTarget (some (.single "a")) = some ["a"] :=
  C7_normalizeTarget_amended.2.2.1 "a" (by decide)

/-- C8 counterexample: the claim says `pathToStateValue` never yields a
compound with an empty mapping for any string-list input. The empty path
leaves the freshly allocated `{}` untouched and returns exactly that empty
compound. -/
theorem C8_pathToStateValue_counterexample :
    pathToStateValue [] = .compound .nil
    ∧ noEmptyCompound (pathToStateValue ([] : List String)) = false :=
  ⟨rfl, rfl⟩

/-- C8 amended: for every nonempty string-list input, `pathToStateValue`
yields either an atomic value or a compound whose mapping has at least one
key at every nesting level. -/
theorem C8_pathToStateValue_amended :
    ∀ p : List String, p ≠ [] → noEmptyCompound (pathToStateValue p) = true := by
  intro p
  induction p with
  | nil => intro h; exact absurd rfl h
  | cons x rest ih =>
    intro _
    cases rest with
    | nil => rfl
    | cons y t =>
      show noEmptyCompound (.compound (.cons x (pathToStateValue (y :: t)) .nil)) = true
      simp only [noEmptyCompound, noEmptyCompoundRegions, Bool.and_true]
      exact ih (by simp)

theorem C8_pathToStateValue_amended_witness :
    noEmptyCompound (pathToStateValue ["a", "b"]) = true :=
  C8_pathToStateValue_amended ["a", "b"] (by decide)

/-- C9 counterexample: the claim quantifies over every StatePath with no
segment containing the delimiter, but the empty path fails the round trip:
joining `[]` gives the empty string, which splits back to `[""]`, not `[]`. -/
theorem C9_roundTrip_counterexample :
    toStatePath (.str (pathJoin ([] : List String) STATE_DELIMITER)) STATE_DELIMITER
      = .ok [""]
    ∧ toStatePath (.str (pathJoin ([] : List String) STATE_DELIMITER)) STATE_DELIMITER
      ≠ .ok ([] : List String) :=
  ⟨rfl, fun h => List.cons_ne_nil "" [] (Except.ok.inj h)⟩

/-- C9 amended: for every nonempty StatePath whose segments do not contain
the (single-character, per §6) delimiter, joining with the delimiter and
converting back with `toStatePath` at the same delimiter yields the path
again. -/
theorem C9_roundTrip_amended (p : List String) (d : String) (hp : p ≠ [])
    (hd : d.length = 1) (hseg : ∀ s ∈ p, ¬ List.IsInfix d.data s.data) :
    toStatePath (.str (pathJoin p d)) d = .ok p := by
  obtain ⟨c, hc⟩ : ∃ c, d.data = [c] := List.length_eq_one.mp hd
  have hdata : (pathJoin p d).data = List.intercalate [c] (p.map String.data) := by
    simp [pathJoin, hc]
  have hx : ∀ l ∈ p.map String.data, c ∉ l := by
    intro l hl hcl
    obtain ⟨s, hs, hsl⟩ := List.mem_map.mp hl
    obtain ⟨u, t, hut⟩ := List.append_of_mem (hsl ▸ hcl)
    exact hseg s hs (hc ▸ ⟨u, t, by rw [hut]; simp⟩)
  have hls : p.map String.data ≠ [] := by
    simp [hp]
  simp only [toStatePath, jsSplit, hc, hdata, splitChar_eq_splitOn]
  rw [List.splitOn_intercalate (p.map String.data) c hx hls, map_mk_data]

theorem C9_roundTrip_amended_witness :
    toStatePath (.str (pathJoin ["a", "b"] STATE_DELIMITER)) STATE_DELIMITER
      = .ok ["a", "b"] :=
  C9_roundTrip_amended ["a", "b"] STATE_DELIMITER (by decide) (by decide) (by decide)

/-- C10: `toObserver` returns any object-typed first argument as-is — the
very same record, even when it lacks `error` or `complete` fields, with no
no-op defaulting applied — and builds the canonical `{next, error, complete}`
record with no-op defaults only when the first argument is a function. -/
theorem C10_toObserver_pass_through :
    (∀ (o : PartialObserver) (eh ch : Option Handler), toObserver (.obs o) eh ch = o)
    ∧ toObserver (.obs { next := some (.fn 0) }) (some (.fn 1)) (some (.fn 2))
        = { next := some (.fn 0), error := none, complete := none }
    ∧ (∀ (h : Handler) (eh ch : Option Handler),
      toObserver (.fn h) eh ch
        = { next := some h, error := some (eh.getD .noop),
            complete := some (ch.getD .noop) }) :=
  ⟨fun _ _ _ => rfl, rfl, fun _ _ _ => rfl⟩
